import Mathlib

/-!
Verification of the fetch/normalize/cache/filter/sort pipeline of the
mattybed product-listing repository.  The definitions below shallowly embed
`server.js` (the Express `/api/products` handler), `src/lib/ebay.ts`
(`getEbayItems` with its node-cache) and `src/app/api/products/route.ts`
(the Next.js `GET` route).  JavaScript numbers appearing in the pipeline
(parsed prices, comparator results) are modelled by `JSNum`: a rational,
one of the two infinities, or NaN.
-/

namespace EbayPipeline

/-- Model of a JavaScript number as it occurs in this pipeline: NaN, an
infinity, or a finite value (modelled as a rational). -/
inductive JSNum where
  | nan
  | posInf
  | negInf
  | num (q : ℚ)
deriving DecidableEq, Repr

/-- JavaScript subtraction `a - b` on `JSNum` (used by the sort comparators). -/
def JSNum.sub : JSNum → JSNum → JSNum
  | .nan, _ => .nan
  | _, .nan => .nan
  | .posInf, .posInf => .nan
  | .posInf, _ => .posInf
  | .negInf, .negInf => .nan
  | .negInf, _ => .negInf
  | .num _, .posInf => .negInf
  | .num _, .negInf => .posInf
  | .num a, .num b => .num (a - b)

/-- JavaScript `a >= b` on `JSNum` (false whenever either side is NaN). -/
def jsGe : JSNum → JSNum → Bool
  | .nan, _ => false
  | _, .nan => false
  | .posInf, _ => true
  | _, .posInf => false
  | _, .negInf => true
  | .negInf, _ => false
  | .num x, .num y => decide (y ≤ x)

/-- JavaScript `a <= b` on `JSNum`. -/
def jsLe (a b : JSNum) : Bool := jsGe b a

/-- JavaScript `isNaN`. -/
def isNaN : JSNum → Bool
  | .nan => true
  | _ => false

/-- ECMAScript `SortCompare` treats a NaN comparator result as `+0`; this
tests whether the comparator value counts as strictly positive. -/
def sortCmpGt : JSNum → Bool
  | .nan => false
  | .posInf => true
  | .negInf => false
  | .num q => decide (0 < q)

/-! ### A model of JavaScript `parseFloat` -/

/-- Value of a list of decimal digit characters. -/
def digitsToNat (ds : List Char) : ℕ :=
  ds.foldl (fun a c => 10 * a + (c.toNat - 48)) 0

/-- Parse a decimal mantissa prefix `digits [. digits]`; fails when no digit
is present, mirroring `parseFloat`'s longest-valid-prefix behaviour. -/
def parseDec (cs : List Char) : Option (ℚ × List Char) :=
  let ip := cs.span Char.isDigit
  match ip.2 with
  | '.' :: rest2 =>
      let fp := rest2.span Char.isDigit
      if ip.1.isEmpty && fp.1.isEmpty then none
      else some ((digitsToNat ip.1 : ℚ) + (digitsToNat fp.1 : ℚ) / ((10 : ℚ) ^ fp.1.length), fp.2)
  | _ => if ip.1.isEmpty then none else some ((digitsToNat ip.1 : ℚ), ip.2)

/-- Parse the tail of an exponent (optional sign then digits). -/
def parseExpTail (cs : List Char) : Option (Int × List Char) :=
  let sp : Int × List Char :=
    match cs with
    | '+' :: r => (1, r)
    | '-' :: r => (-1, r)
    | r => (1, r)
  let dp := sp.2.span Char.isDigit
  if dp.1.isEmpty then none else some (sp.1 * (digitsToNat dp.1 : Int), dp.2)

/-- Parse an optional exponent part `e`/`E` sign digits. -/
def parseExp (cs : List Char) : Option (Int × List Char) :=
  match cs with
  | 'e' :: rest => parseExpTail rest
  | 'E' :: rest => parseExpTail rest
  | _ => none

/-- Model of JavaScript `parseFloat` on a character list: skip leading
whitespace, optional sign, `Infinity` or a decimal mantissa with optional
exponent; NaN when no numeric prefix exists.  Trailing garbage is ignored. -/
def parseFloatChars (cs0 : List Char) : JSNum :=
  let cs1 := cs0.dropWhile (fun c => c = ' ' || c = '\t' || c = '\n' || c = '\r')
  let sp : ℚ × List Char :=
    match cs1 with
    | '-' :: r => (-1, r)
    | '+' :: r => (1, r)
    | r => (1, r)
  if sp.2.take 8 = "Infinity".data then
    (if sp.1 < 0 then JSNum.negInf else JSNum.posInf)
  else
    match parseDec sp.2 with
    | none => JSNum.nan
    | some md =>
        match parseExp md.2 with
        | none => JSNum.num (sp.1 * md.1)
        | some ed => JSNum.num (sp.1 * md.1 * (10 : ℚ) ^ ed.1)

/-- JavaScript `parseFloat` on a string. -/
def parseFloatS (s : String) : JSNum := parseFloatChars s.data

/-! ### String helpers mirroring the JavaScript string operations used -/

/-- JavaScript `toLowerCase` (ASCII case folding, as used on these titles). -/
def jsToLower (s : String) : String := String.mk (s.data.map Char.toLower)

/-- Does `hay` start with `needle`? -/
def startsWithList [DecidableEq α] : List α → List α → Bool
  | [], _ => true
  | _ :: _, [] => false
  | a :: as, b :: bs => a = b && startsWithList as bs

/-- Does `hay` contain `needle` as a contiguous run? -/
def containsSub [DecidableEq α] (needle : List α) : List α → Bool
  | [] => startsWithList needle []
  | c :: t => startsWithList needle (c :: t) || containsSub needle t

/-- JavaScript `s.includes(sub)`. -/
def jsIncludes (s sub : String) : Bool := containsSub sub.data s.data

/-- JavaScript `s < t` on strings (lexicographic on code units). -/
def charListLt : List Char → List Char → Bool
  | [], [] => false
  | [], _ :: _ => true
  | _ :: _, [] => false
  | a :: as, b :: bs => if a < b then true else if b < a then false else charListLt as bs

/-- JavaScript string comparison `s < t`. -/
def jsStrLt (s t : String) : Bool := charListLt s.data t.data

/-- JavaScript truthiness of an optional string: present and non-empty. -/
def truthyS : Option String → Bool
  | none => false
  | some s => decide (s ≠ "")

/-- JavaScript `a || b` on optional strings (empty string is falsy). -/
def jsOrS : Option String → Option String → Option String
  | some s, b => if s = "" then b else some s
  | none, b => b

/-! ### The raw upstream envelope (array-wrapped scalar fields) -/

/-- Raw `currentPrice` element: `value` models the upstream's `__value__`
field, `currencyId` its `@currencyId` attribute. -/
structure RawCurrentPrice where
  value : Option String
  currencyId : Option String
deriving DecidableEq, Repr

/-- Raw `sellingStatus` element. -/
structure RawSellingStatus where
  currentPrice : Option (List RawCurrentPrice)
deriving DecidableEq, Repr

/-- A raw item record as it appears inside the upstream search result:
every scalar field is wrapped in a single-element array, and any field may
be absent. -/
structure RawItem where
  itemId : Option (List String)
  title : Option (List String)
  sellingStatus : Option (List RawSellingStatus)
  viewItemURL : Option (List String)
  galleryURL : Option (List String)
  pictureURLLarge : Option (List String)
deriving DecidableEq, Repr

/-- Raw `searchResult` element. -/
structure SearchResult where
  item : Option (List RawItem)
deriving DecidableEq, Repr

/-- One element of the top-level response array. -/
structure FindItemsResponse where
  searchResult : Option (List SearchResult)
deriving DecidableEq, Repr

/-- Envelope of `findItemsAdvanced` as consumed by `server.js`. -/
structure Envelope where
  findItemsAdvancedResponse : Option (List FindItemsResponse)
deriving DecidableEq, Repr

/-- Envelope of `findItemsIneBayStores` as consumed by `src/lib/ebay.ts`. -/
structure StoresEnvelope where
  findItemsIneBayStoresResponse : Option (List FindItemsResponse)
deriving DecidableEq, Repr

/-- `data.findItemsAdvancedResponse?.[0]?.searchResult?.[0]?.item || []`
from `server.js`. -/
def extractItems (data : Envelope) : List RawItem :=
  ((((data.findItemsAdvancedResponse.bind List.head?).bind
      (fun r => r.searchResult)).bind List.head?).bind (fun sr => sr.item)).getD []

/-! ### Normalized items -/

/-- The simplified item shape produced by the `server.js` mapping. -/
structure SimplifiedItem where
  id : Option String
  title : Option String
  price : Option String
  currency : Option String
  viewItemURL : Option String
  galleryURL : Option String
deriving DecidableEq, Repr

/-- The `items.map((item) => ({...}))` step of `server.js`: unwrap the first
element of each array-wrapped field via optional chaining. -/
def simplifyItem (x : RawItem) : SimplifiedItem :=
  { id := x.itemId.bind List.head?
    title := x.title.bind List.head?
    price := ((((x.sellingStatus.bind List.head?).bind
        (fun s => s.currentPrice)).bind List.head?).bind (fun p => p.value))
    currency := ((((x.sellingStatus.bind List.head?).bind
        (fun s => s.currentPrice)).bind List.head?).bind (fun p => p.currencyId))
    viewItemURL := x.viewItemURL.bind List.head?
    galleryURL := x.galleryURL.bind List.head? }

/-- The `EbayItem` shape of `src/lib/ebay.ts` (fields may be absent at
runtime despite the TypeScript annotations, hence `Option`). -/
structure EbayItem where
  id : Option String
  title : Option String
  price : Option String
  img : Option String
  url : Option String
deriving DecidableEq, Repr

/-- The per-item mapping inside `getEbayItems` of `src/lib/ebay.ts`. -/
def mapEbayItem (x : RawItem) : EbayItem :=
  { id := x.itemId.bind List.head?
    title := x.title.bind List.head?
    price := ((((x.sellingStatus.bind List.head?).bind
        (fun s => s.currentPrice)).bind List.head?).bind (fun p => p.value))
    img := jsOrS (x.pictureURLLarge.bind List.head?) (x.galleryURL.bind List.head?)
    url := x.viewItemURL.bind List.head? }

/-- `data.findItemsIneBayStoresResponse?.[0]?.searchResult?.[0]?.item?.map(..) ?? []`
from `src/lib/ebay.ts`. -/
def extractStoresItems (env : StoresEnvelope) : List EbayItem :=
  (((((env.findItemsIneBayStoresResponse.bind List.head?).bind
      (fun r => r.searchResult)).bind List.head?).bind
      (fun sr => sr.item)).map (List.map mapEbayItem)).getD []

/-! ### The per-request query parameters and post-processing of `server.js` -/

/-- Query parameters of an incoming `/api/products` request. -/
structure Query where
  sortBy : Option String
  minPrice : Option String
  maxPrice : Option String
  keywords : Option String
deriving DecidableEq, Repr

/-- Keyword filter of `server.js`: when `keywords` is truthy, retain items
whose truthy `title`, lower-cased, contains the lower-cased keyword. -/
def keywordFilter (keywords : Option String) (items : List SimplifiedItem) :
    List SimplifiedItem :=
  if truthyS keywords then
    items.filter (fun it =>
      truthyS it.title &&
        jsIncludes (jsToLower (it.title.getD "")) (jsToLower (keywords.getD "")))
  else items

/-- Min-price filter of `server.js`: applied only when `minPrice` is truthy
and parses to a non-NaN number; retains items with truthy `price` whose
parsed price is `>=` the bound. -/
def minPriceFilter (minPrice : Option String) (items : List SimplifiedItem) :
    List SimplifiedItem :=
  if truthyS minPrice then
    if isNaN (parseFloatS (minPrice.getD "")) then items
    else items.filter (fun it =>
      truthyS it.price &&
        jsGe (parseFloatS (it.price.getD "")) (parseFloatS (minPrice.getD "")))
  else items

/-- Max-price filter of `server.js`, dual to `minPriceFilter`. -/
def maxPriceFilter (maxPrice : Option String) (items : List SimplifiedItem) :
    List SimplifiedItem :=
  if truthyS maxPrice then
    if isNaN (parseFloatS (maxPrice.getD "")) then items
    else items.filter (fun it =>
      truthyS it.price &&
        jsLe (parseFloatS (it.price.getD "")) (parseFloatS (maxPrice.getD "")))
  else items

/-- The retention predicate stated by the spec for the keyword filter: the
item's title, case-folded, contains the case-folded keyword as a substring
(an item without a title is not retained). -/
def specKwPred (k : String) (it : SimplifiedItem) : Bool :=
  match it.title with
  | none => false
  | some t => jsIncludes (jsToLower t) (jsToLower k)

/-- The retention predicate stated by the spec for the min-price bound:
when the bound is supplied and numeric, the parsed price must be `>=` it
(a missing or unparsable price fails the check); an absent, empty or
non-numeric bound constrains nothing. -/
def specMinPred (minPrice : Option String) (it : SimplifiedItem) : Bool :=
  if truthyS minPrice then
    if isNaN (parseFloatS (minPrice.getD "")) then true
    else
      match it.price with
      | none => false
      | some p => jsGe (parseFloatS p) (parseFloatS (minPrice.getD ""))
  else true

/-- The retention predicate stated by the spec for the max-price bound,
dual to `specMinPred`. -/
def specMaxPred (maxPrice : Option String) (it : SimplifiedItem) : Bool :=
  if truthyS maxPrice then
    if isNaN (parseFloatS (maxPrice.getD "")) then true
    else
      match it.price with
      | none => false
      | some p => jsLe (parseFloatS p) (parseFloatS (maxPrice.getD ""))
  else true

/-- `a.price ? parseFloat(a.price) : Infinity` from the `price_asc` comparator. -/
def priceKeyAsc (it : SimplifiedItem) : JSNum :=
  if truthyS it.price then parseFloatS (it.price.getD "") else .posInf

/-- `a.price ? parseFloat(a.price) : -Infinity` from the `price_desc` comparator. -/
def priceKeyDesc (it : SimplifiedItem) : JSNum :=
  if truthyS it.price then parseFloatS (it.price.getD "") else .negInf

/-- The `price_asc` comparator `priceA - priceB` of `server.js`. -/
def cmpPriceAsc (a b : SimplifiedItem) : JSNum :=
  (priceKeyAsc a).sub (priceKeyAsc b)

/-- The `price_desc` comparator `priceB - priceA` of `server.js`. -/
def cmpPriceDesc (a b : SimplifiedItem) : JSNum :=
  (priceKeyDesc b).sub (priceKeyDesc a)

/-- `a.title ? a.title.toLowerCase() : ''` from the title comparator. -/
def titleKey (it : SimplifiedItem) : String :=
  if truthyS it.title then jsToLower (it.title.getD "") else ""

/-- The `title`/`title_asc` comparator of `server.js`. -/
def cmpTitleAsc (a b : SimplifiedItem) : JSNum :=
  if jsStrLt (titleKey a) (titleKey b) then .num (-1)
  else if jsStrLt (titleKey b) (titleKey a) then .num 1
  else .num 0

/-- Insert `x` into `l`, moving past exactly the elements the comparator
ranks strictly below `x` (a NaN comparator value counts as equal, per
ECMAScript `SortCompare`). -/
def jsInsert (cmp : α → α → JSNum) (x : α) : List α → List α
  | [] => [x]
  | y :: ys => if sortCmpGt (cmp x y) then y :: jsInsert cmp x ys else x :: y :: ys

/-- A stable sort with a JavaScript comparator, modelling
`Array.prototype.sort` (stable since ES2019). -/
def jsSort (cmp : α → α → JSNum) : List α → List α
  | [] => []
  | x :: xs => jsInsert cmp x (jsSort cmp xs)

/-- The comparator selected by the `switch (sortBy.toLowerCase())` of
`server.js`; `none` for the unrecognized/default case (no server-side sort). -/
def resolveSort (s : String) : Option (SimplifiedItem → SimplifiedItem → JSNum) :=
  match jsToLower s with
  | "price_asc" => some cmpPriceAsc
  | "price_desc" => some cmpPriceDesc
  | "title" => some cmpTitleAsc
  | "title_asc" => some cmpTitleAsc
  | _ => none

/-- The `if (sortBy) switch (...)` sorting stage of `server.js`. -/
def sortStage (sortBy : Option String) (items : List SimplifiedItem) :
    List SimplifiedItem :=
  match sortBy with
  | none => items
  | some s =>
      if s = "" then items
      else
        match resolveSort s with
        | some cmp => jsSort cmp items
        | none => items

/-- Does the query carry a sort value the `server.js` switch recognizes? -/
def recognizedSortBy (sortBy : Option String) : Bool :=
  match sortBy with
  | none => false
  | some s => if s = "" then false else (resolveSort s).isSome

/-- The full per-request post-processing of `server.js`: keyword filter,
min-price filter, max-price filter, then the sort stage. -/
def postProcess (q : Query) (items : List SimplifiedItem) : List SimplifiedItem :=
  sortStage q.sortBy
    (maxPriceFilter q.maxPrice (minPriceFilter q.minPrice (keywordFilter q.keywords items)))

/-! ### The route handlers and the cached orchestrator -/

/-- Outcome of the awaited `fetch(url)` followed by `response.json()`:
the transport can reject, the body can fail to parse as JSON, or a JSON
envelope is obtained (a non-success HTTP status still yields whatever JSON
body the upstream sent, since `fetch` does not throw on it). -/
inductive Fetch (ε : Type) where
  | transportError
  | jsonError
  | ok (env : ε)
deriving DecidableEq, Repr

/-- HTTP response produced by a route handler: a JSON item list, or an
error object with a status code. -/
inductive ApiResult (α : Type) where
  | ok (items : List α)
  | error (status : ℕ) (msg : String)
deriving DecidableEq, Repr

/-- The `/api/products` handler of `server.js`.  `appId`/`store` are the
`EBAY_APP_ID`/`EBAY_STORE` environment values; the returned flag records
whether the upstream fetch was attempted. -/
def serverHandler (appId store : Option String) (q : Query) (fr : Fetch Envelope) :
    ApiResult SimplifiedItem × Bool :=
  if !truthyS appId || !truthyS store then
    (.error 500 "EBAY_APP_ID and EBAY_STORE env vars required", false)
  else
    match fr with
    | .transportError => (.error 500 "Failed to fetch from eBay", true)
    | .jsonError => (.error 500 "Failed to fetch from eBay", true)
    | .ok env => (.ok (postProcess q ((extractItems env).map simplifyItem)), true)

/-- Configuration read from the process environment by `src/lib/ebay.ts`. -/
structure EnvConfig where
  appId : Option String
  store : Option String
deriving DecidableEq, Repr

/-- The query string built by `getEbayItems`; absent credentials default to
the empty string via `?? ''`. -/
def buildStoresParams (cfg : EnvConfig) : List (String × String) :=
  [("OPERATION-NAME", "findItemsIneBayStores"),
   ("SERVICE-VERSION", "1.13.0"),
   ("SECURITY-APPNAME", cfg.appId.getD ""),
   ("storeName", cfg.store.getD ""),
   ("paginationInput.entriesPerPage", "50"),
   ("outputSelector", "PictureURLLarge"),
   ("GLOBAL-ID", "EBAY-GB"),
   ("siteid", "3")]

/-- State of the module-level node-cache of `src/lib/ebay.ts`: at most the
single `'items'` entry, holding the stored list and its insertion time
(in seconds). -/
structure CacheState where
  entry : Option (List EbayItem × ℚ)
deriving DecidableEq, Repr

/-- Modelled from the spec: the `node-cache` dependency itself is not part
of the repository sources, so its `get` is modelled from the spec's Cache
contract — TTL measured from insertion, a read after the TTL elapses is
treated as a miss. -/
def cacheGet (st : CacheState) (now ttl : ℚ) : Option (List EbayItem) :=
  match st.entry with
  | none => none
  | some e => if now < e.2 + ttl then some e.1 else none

/-- Modelled from the spec: the `node-cache` `set` simply overwrites the
entry, recording the insertion time. -/
def cacheSet (_st : CacheState) (items : List EbayItem) (now : ℚ) : CacheState :=
  ⟨some (items, now)⟩

/-- Result of one `getEbayItems` call: a returned list together with the
new cache state and whether the upstream fetch ran, or a thrown error
(`getEbayItems` has no try/catch, so fetch/JSON failures propagate). -/
inductive TsOutcome where
  | ok (items : List EbayItem) (state : CacheState) (fetched : Bool)
  | thrown (state : CacheState)
deriving DecidableEq, Repr

/-- Is the outcome a normal return? -/
def TsOutcome.isOk : TsOutcome → Bool
  | .ok _ _ _ => true
  | .thrown _ => false

/-- `getEbayItems` of `src/lib/ebay.ts`: return the cached list when the
cache read hits; otherwise fetch, normalize, store and return.  The
configuration `cfg` feeds only `buildStoresParams` — the function performs
no configuration check. -/
def getEbayItems (_cfg : EnvConfig) (st : CacheState) (now ttl : ℚ)
    (fr : Fetch StoresEnvelope) : TsOutcome :=
  match cacheGet st now ttl with
  | some items => .ok items st false
  | none =>
      match fr with
      | .transportError => .thrown st
      | .jsonError => .thrown st
      | .ok env => .ok (extractStoresItems env) (cacheSet st (extractStoresItems env) now) true

/-- The `GET` route of `src/app/api/products/route.ts`.  The incoming
query `q` is accepted but never read: the route calls `getEbayItems()`
with no arguments and returns its items, mapping a thrown error to a 500
response. -/
def routeGET (q : Query) (cfg : EnvConfig) (st : CacheState) (now ttl : ℚ)
    (fr : Fetch StoresEnvelope) : ApiResult EbayItem × CacheState :=
  match q, getEbayItems cfg st now ttl fr with
  | _, .ok items st2 _ => (.ok items, st2)
  | _, .thrown st2 => (.error 500 "Failed to fetch", st2)

/-! ### Concrete sample data used by witnesses and counterexamples -/

/-- A raw item carrying all four required fields except `title`. -/
def rawNoTitle : RawItem :=
  { itemId := some ["1"]
    title := none
    sellingStatus := some [⟨some [⟨some "5.00", some "GBP"⟩]⟩]
    viewItemURL := some ["http://x"]
    galleryURL := none
    pictureURLLarge := none }

/-- An envelope whose single raw item lacks a title. -/
def envNoTitle : Envelope := ⟨some [⟨some [⟨some [rawNoTitle]⟩]⟩]⟩

/-- A raw item carrying every field as a single-element array. -/
def rawFull : RawItem :=
  { itemId := some ["9"]
    title := some ["T"]
    sellingStatus := some [⟨some [⟨some "7", some "GBP"⟩]⟩]
    viewItemURL := some ["u"]
    galleryURL := some ["g"]
    pictureURLLarge := none }

/-- An envelope that parses but lacks the expected nested structure. -/
def emptyEnvelope : Envelope := ⟨none⟩

/-- A stores envelope that parses but lacks the expected nested structure. -/
def emptyStoresEnv : StoresEnvelope := ⟨none⟩

/-- A query carrying only the keyword `oak`. -/
def oakQuery : Query := ⟨none, none, none, some "oak"⟩

/-- A query with no parameters. -/
def emptyQuery : Query := ⟨none, none, none, none⟩

/-- Simplified item with an unparsable (but present) price. -/
def itemAbc : SimplifiedItem := ⟨some "x1", some "X1", some "abc", none, none, none⟩

/-- Simplified item priced `5`. -/
def itemFive : SimplifiedItem := ⟨some "x2", some "X2", some "5", none, none, none⟩

/-- Simplified item with no price at all. -/
def itemNoPrice : SimplifiedItem := ⟨some "x3", some "X3", none, none, none, none⟩

/-- Item `{title:"B", price:5}` of the stability example. -/
def itemB : SimplifiedItem := ⟨some "b", some "B", some "5", none, none, none⟩

/-- Item `{title:"A", price:5}` of the stability example. -/
def itemA : SimplifiedItem := ⟨some "a", some "A", some "5", none, none, none⟩

/-- Item `{title:"Oak Table"}` of the keyword example. -/
def oakTable : SimplifiedItem := ⟨some "k1", some "Oak Table", some "50", none, none, none⟩

/-- Item `{title:"oak chair"}` of the keyword example. -/
def oakChair : SimplifiedItem := ⟨some "k2", some "oak chair", some "20", none, none, none⟩

/-- Item `{title:"Metal Frame"}` of the keyword example. -/
def metalFrame : SimplifiedItem := ⟨some "k3", some "Metal Frame", some "30", none, none, none⟩

/-- A cached `EbayItem` whose title does not contain `oak`. -/
def mfEbayItem : EbayItem := ⟨some "m", some "Metal Frame", some "10", none, none⟩


/-! ### Helper lemmas -/

theorem filter_const_true (l : List α) : l.filter (fun _ => true) = l := by
  induction l with
  | nil => rfl
  | cons x xs ih => simp [List.filter, ih]

theorem filter_filter_and (p q : α → Bool) (l : List α) :
    (l.filter p).filter q = l.filter (fun a => p a && q a) := by
  induction l with
  | nil => rfl
  | cons x xs ih =>
    cases hp : p x <;> cases hq : q x <;> simp [List.filter, hp, hq, ih]

theorem jsGe_nan_left (m : JSNum) : jsGe .nan m = false := by
  cases m <;> rfl

theorem jsGe_nan_right (m : JSNum) : jsGe m .nan = false := by
  cases m <;> rfl

theorem parseFloatS_empty : parseFloatS "" = .nan := rfl

theorem data_ne_nil_of_ne_empty {k : String} (h : k ≠ "") : k.data ≠ [] := by
  intro hnil
  apply h
  cases k with
  | mk l =>
      simp only at hnil
      subst hnil
      rfl

theorem jsIncludes_lower_empty {k : String} (h : k ≠ "") :
    jsIncludes (jsToLower "") (jsToLower k) = false := by
  show containsSub (jsToLower k).data (jsToLower "").data = false
  have hd : (jsToLower k).data = k.data.map Char.toLower := rfl
  have he : (jsToLower "").data = ([] : List Char) := rfl
  rw [hd, he]
  cases hk : k.data with
  | nil => exact absurd hk (data_ne_nil_of_ne_empty h)
  | cons c cs => rfl

theorem jsInsert_perm (cmp : α → α → JSNum) (x : α) (l : List α) :
    List.Perm (jsInsert cmp x l) (x :: l) := by
  induction l with
  | nil => exact List.Perm.refl _
  | cons y ys ih =>
    rw [jsInsert]
    split
    · exact (List.Perm.cons y ih).trans (List.Perm.swap x y ys)
    · exact List.Perm.refl _

theorem jsSort_perm (cmp : α → α → JSNum) (l : List α) : List.Perm (jsSort cmp l) l := by
  induction l with
  | nil => exact List.Perm.refl _
  | cons x xs ih =>
    exact (jsInsert_perm cmp x (jsSort cmp xs)).trans (List.Perm.cons x ih)

theorem minPriceFilter_eq_spec (minP : Option String) (items : List SimplifiedItem) :
    minPriceFilter minP items = items.filter (specMinPred minP) := by
  unfold minPriceFilter specMinPred
  cases h1 : truthyS minP with
  | false => simp [filter_const_true]
  | true =>
    cases h2 : isNaN (parseFloatS (minP.getD "")) with
    | true => simp [filter_const_true]
    | false =>
      simp only [if_true, Bool.false_eq_true, if_false]
      apply List.filter_congr
      intro it _
      cases hp : it.price with
      | none => simp [truthyS]
      | some p =>
        by_cases hp0 : p = ""
        · subst hp0
          simp [truthyS, parseFloatS_empty, jsGe_nan_left]
        · simp [truthyS, hp0]

theorem maxPriceFilter_eq_spec (maxP : Option String) (items : List SimplifiedItem) :
    maxPriceFilter maxP items = items.filter (specMaxPred maxP) := by
  unfold maxPriceFilter specMaxPred
  cases h1 : truthyS maxP with
  | false => simp [filter_const_true]
  | true =>
    cases h2 : isNaN (parseFloatS (maxP.getD "")) with
    | true => simp [filter_const_true]
    | false =>
      simp only [if_true, Bool.false_eq_true, if_false]
      apply List.filter_congr
      intro it _
      cases hp : it.price with
      | none => simp [truthyS]
      | some p =>
        by_cases hp0 : p = ""
        · subst hp0
          simp [truthyS, parseFloatS_empty, jsLe, jsGe_nan_right]
        · simp [truthyS, hp0]

theorem keywordFilter_eq_spec (k : String) (items : List SimplifiedItem) (hk : k ≠ "") :
    keywordFilter (some k) items = items.filter (specKwPred k) := by
  have ht : truthyS (some k) = true := by simp [truthyS, hk]
  unfold keywordFilter
  rw [ht]
  simp only [if_true]
  apply List.filter_congr
  intro it _
  cases hti : it.title with
  | none => simp [truthyS, specKwPred, hti]
  | some t =>
    by_cases ht0 : t = ""
    · subst ht0
      simp [truthyS, specKwPred, hti, jsIncludes_lower_empty hk]
    · simp [truthyS, specKwPred, hti, ht0]

theorem keywordFilter_nil (k : Option String) : keywordFilter k [] = [] := by
  unfold keywordFilter
  split <;> rfl

theorem minPriceFilter_nil (m : Option String) : minPriceFilter m [] = [] := by
  unfold minPriceFilter
  split
  · split <;> rfl
  · rfl

theorem maxPriceFilter_nil (m : Option String) : maxPriceFilter m [] = [] := by
  unfold maxPriceFilter
  split
  · split <;> rfl
  · rfl

theorem sortStage_nil (sb : Option String) : sortStage sb [] = [] := by
  cases sb with
  | none => rfl
  | some s =>
    by_cases hs : s = ""
    · simp [sortStage, hs]
    · simp only [sortStage, if_neg hs]
      cases hr : resolveSort s with
      | none => rfl
      | some c => rfl

theorem postProcess_nil (q : Query) : postProcess q [] = [] := by
  rw [postProcess, keywordFilter_nil, minPriceFilter_nil, maxPriceFilter_nil, sortStage_nil]

theorem keywordFilter_sublist (k : Option String) (items : List SimplifiedItem) :
    (keywordFilter k items).Sublist items := by
  unfold keywordFilter
  split
  · exact List.filter_sublist _
  · exact List.Sublist.refl _

theorem minPriceFilter_sublist (m : Option String) (items : List SimplifiedItem) :
    (minPriceFilter m items).Sublist items := by
  unfold minPriceFilter
  split
  · split
    · exact List.Sublist.refl _
    · exact List.filter_sublist _
  · exact List.Sublist.refl _

theorem maxPriceFilter_sublist (m : Option String) (items : List SimplifiedItem) :
    (maxPriceFilter m items).Sublist items := by
  unfold maxPriceFilter
  split
  · split
    · exact List.Sublist.refl _
    · exact List.filter_sublist _
  · exact List.Sublist.refl _

theorem sortStage_perm (sb : Option String) (items : List SimplifiedItem) :
    List.Perm (sortStage sb items) items := by
  cases sb with
  | none => exact List.Perm.refl _
  | some s =>
    by_cases hs : s = ""
    · simp only [sortStage, if_pos hs]
      exact List.Perm.refl _
    · simp only [sortStage, if_neg hs]
      cases hr : resolveSort s with
      | none => exact List.Perm.refl _
      | some c => exact jsSort_perm _ _

theorem sortStage_of_unrecognized (sb : Option String) (items : List SimplifiedItem)
    (h : recognizedSortBy sb = false) : sortStage sb items = items := by
  cases sb with
  | none => rfl
  | some s =>
    by_cases hs : s = ""
    · simp [sortStage, hs]
    · simp only [sortStage, if_neg hs]
      simp only [recognizedSortBy, if_neg hs] at h
      cases hr : resolveSort s with
      | none => rfl
      | some c =>
        rw [hr] at h
        simp [Option.isSome] at h

theorem sortCmpGt_sub_self (v : JSNum) : sortCmpGt (v.sub v) = false := by
  cases v <;> simp [JSNum.sub, sortCmpGt]

theorem charListLt_irrefl (l : List Char) : charListLt l l = false := by
  induction l with
  | nil => rfl
  | cons a as ih => simp [charListLt, ih]

theorem jsStrLt_irrefl (s : String) : jsStrLt s s = false := charListLt_irrefl s.data

theorem filter_jsInsert (cmp : α → α → JSNum) (p : α → Bool)
    (hp : ∀ a b, p a = true → p b = true → sortCmpGt (cmp a b) = false)
    (x : α) (l : List α) :
    (jsInsert cmp x l).filter p = if p x then x :: l.filter p else l.filter p := by
  induction l with
  | nil => cases hx : p x <;> simp [jsInsert, List.filter, hx]
  | cons y ys ih =>
    rw [jsInsert]
    by_cases hgt : sortCmpGt (cmp x y) = true
    · rw [if_pos hgt]
      cases hx : p x with
      | false => cases hy : p y <;> simp [List.filter, hy, ih, hx]
      | true =>
        cases hy : p y with
        | false => simp [List.filter, hy, ih, hx]
        | true => exact absurd hgt (by simp [hp x y hx hy])
    · rw [if_neg hgt]
      cases hx : p x <;> cases hy : p y <;> simp [List.filter, hx, hy]

theorem filter_jsSort (cmp : α → α → JSNum) (p : α → Bool)
    (hp : ∀ a b, p a = true → p b = true → sortCmpGt (cmp a b) = false)
    (l : List α) : (jsSort cmp l).filter p = l.filter p := by
  induction l with
  | nil => rfl
  | cons x xs ih =>
    rw [jsSort, filter_jsInsert cmp p hp]
    cases hx : p x <;> simp [List.filter, hx, ih]

theorem jsInsert_pairwise_extreme {α : Type} (cmp : α → α → JSNum) (P F : α → Prop)
    (hPF : ∀ a, F a → ¬ P a)
    (h1 : ∀ a b, P a → F b → sortCmpGt (cmp a b) = true)
    (h2 : ∀ a b, F a → P b → sortCmpGt (cmp a b) = false)
    (x : α) (hx : F x ∨ P x) :
    ∀ l : List α, (∀ y ∈ l, F y ∨ P y) →
      l.Pairwise (fun a b => ¬(P a ∧ F b)) →
      (jsInsert cmp x l).Pairwise (fun a b => ¬(P a ∧ F b)) := by
  intro l
  induction l with
  | nil =>
    intro _ _
    simp [jsInsert]
  | cons y ys ih =>
    intro hmem hp
    obtain ⟨hy, hys⟩ := List.pairwise_cons.mp hp
    rw [jsInsert]
    by_cases hgt : sortCmpGt (cmp x y) = true
    · rw [if_pos hgt]
      refine List.Pairwise.cons ?_ (ih (fun z hz => hmem z (List.mem_cons_of_mem _ hz)) hys)
      intro b hb
      have hb2 : b = x ∨ b ∈ ys := by
        have := (jsInsert_perm cmp x ys).mem_iff.mp hb
        simpa using this
      rcases hb2 with rfl | hb2
      · rintro ⟨hPy, hFb⟩
        have hzero := h2 b y hFb hPy
        rw [hzero] at hgt
        exact Bool.false_ne_true hgt
      · exact hy b hb2
    · rw [if_neg hgt]
      refine List.Pairwise.cons ?_ (List.Pairwise.cons hy hys)
      intro b hb
      rintro ⟨hPx, hFb⟩
      rcases hmem y (List.mem_cons_self y ys) with hFy | hPy
      · exact hgt (h1 x y hPx hFy)
      · rcases List.mem_cons.mp hb with rfl | hb2
        · exact hPF b hFb hPy
        · exact hy b hb2 ⟨hPy, hFb⟩

theorem jsSort_pairwise_extreme {α : Type} (cmp : α → α → JSNum) (P F : α → Prop)
    (hPF : ∀ a, F a → ¬ P a)
    (h1 : ∀ a b, P a → F b → sortCmpGt (cmp a b) = true)
    (h2 : ∀ a b, F a → P b → sortCmpGt (cmp a b) = false)
    (l : List α) (hl : ∀ y ∈ l, F y ∨ P y) :
    (jsSort cmp l).Pairwise (fun a b => ¬(P a ∧ F b)) := by
  induction l with
  | nil => exact List.Pairwise.nil
  | cons x xs ih =>
    rw [jsSort]
    refine jsInsert_pairwise_extreme cmp P F hPF h1 h2 x (hl x (List.mem_cons_self x xs))
      (jsSort cmp xs) ?_ (ih fun y hy => hl y (List.mem_cons_of_mem _ hy))
    intro y hy
    exact hl y (List.mem_cons_of_mem _ ((jsSort_perm cmp xs).mem_iff.mp hy))

/-! ### Claim theorems -/

/-- C4: for every item list and every supplied min/max price bound, the
price-filter stage of `server.js` retains exactly the items whose parsed
price satisfies `price >= minPrice` and `price <= maxPrice` for each
supplied numeric bound (an item whose price is missing or does not parse
fails a supplied numeric bound), while a supplied non-numeric bound
constrains nothing, leaving the list unchanged. -/
theorem c4_price_bounds (minP maxP : Option String) (items : List SimplifiedItem) :
    maxPriceFilter maxP (minPriceFilter minP items)
      = items.filter (fun it => specMinPred minP it && specMaxPred maxP it) := by
  rw [minPriceFilter_eq_spec, maxPriceFilter_eq_spec, filter_filter_and]

/-- C5: the keyword filter of `server.js` is the identity for an absent or
empty keyword, and for a non-empty keyword retains exactly (in order) the
items whose lower-cased title contains the lower-cased keyword. -/
theorem c5_keyword_filter (k : String) (items : List SimplifiedItem) :
    keywordFilter none items = items
  ∧ keywordFilter (some "") items = items
  ∧ (k ≠ "" → keywordFilter (some k) items = items.filter (specKwPred k)) :=
  ⟨rfl, rfl, fun hk => keywordFilter_eq_spec k items hk⟩

/-- Witness for C5 at the spec's `oak` example. -/
theorem c5_keyword_filter_witness :
    ("oak" ≠ "")
  ∧ keywordFilter (some "oak") [oakTable, oakChair, metalFrame]
      = [oakTable, oakChair, metalFrame].filter (specKwPred "oak") :=
  ⟨by decide, (c5_keyword_filter "oak" [oakTable, oakChair, metalFrame]).2.2 (by decide)⟩

/-- C2 counterexample: a raw item missing its title is not excluded — the
normalized output of `server.js` contains it, with `title` absent. -/
theorem c2_counterexample :
    rawNoTitle.title = none
  ∧ extractItems envNoTitle = [rawNoTitle]
  ∧ (extractItems envNoTitle).map simplifyItem
      = [{ id := some "1", title := none, price := some "5.00",
           currency := some "GBP", viewItemURL := some "http://x",
           galleryURL := none }] := by
  refine ⟨rfl, rfl, rfl⟩

/-- C2 (amended): the normalizers drop nothing — every raw item yields one
normalized item (in both `server.js` and `src/lib/ebay.ts`), and a raw item
whose fields are present as single-element arrays is unwrapped to their
first elements. -/
theorem c2_normalizer_amended (raws : List RawItem) :
    ((raws.map simplifyItem).length = raws.length)
  ∧ ((raws.map mapEbayItem).length = raws.length)
  ∧ (∀ x ∈ raws, ∀ i t p c u g : String,
      x.itemId = some [i] → x.title = some [t] →
      x.sellingStatus = some [⟨some [⟨some p, some c⟩]⟩] →
      x.viewItemURL = some [u] → x.galleryURL = some [g] →
      simplifyItem x =
        { id := some i, title := some t, price := some p,
          currency := some c, viewItemURL := some u, galleryURL := some g }) := by
  refine ⟨by simp, by simp, ?_⟩
  intro x _ i t p c u g hi ht hs hv hg
  simp [simplifyItem, hi, ht, hs, hv, hg]

/-- Witness for C2 (amended) at a fully-populated raw item. -/
theorem c2_normalizer_amended_witness :
    ([rawFull].map simplifyItem).length = [rawFull].length
  ∧ simplifyItem rawFull =
      { id := some "9", title := some "T", price := some "7",
        currency := some "GBP", viewItemURL := some "u", galleryURL := some "g" } :=
  ⟨(c2_normalizer_amended [rawFull]).1,
   (c2_normalizer_amended [rawFull]).2.2 rawFull (List.mem_cons_self _ _)
     "9" "T" "7" "GBP" "u" "g" rfl rfl rfl rfl rfl⟩

/-- C7: the three sorts of `server.js` are stable — for every value of the
sort key, the items carrying that key appear in the output in exactly their
input order; in particular `[{B,5},{A,5}]` sorted by `price_asc` stays
`[B, A]`. -/
theorem c7_sort_stable (items : List SimplifiedItem) (k : JSNum) (t : String) :
    ((jsSort cmpPriceAsc items).filter (fun it => decide (priceKeyAsc it = k))
        = items.filter (fun it => decide (priceKeyAsc it = k)))
  ∧ ((jsSort cmpPriceDesc items).filter (fun it => decide (priceKeyDesc it = k))
        = items.filter (fun it => decide (priceKeyDesc it = k)))
  ∧ ((jsSort cmpTitleAsc items).filter (fun it => decide (titleKey it = t))
        = items.filter (fun it => decide (titleKey it = t)))
  ∧ jsSort cmpPriceAsc [itemB, itemA] = [itemB, itemA] := by
  refine ⟨filter_jsSort _ _ ?_ _, filter_jsSort _ _ ?_ _, filter_jsSort _ _ ?_ _,
    by with_unfolding_all decide⟩
  · intro a b ha hb
    have ha2 : priceKeyAsc a = k := of_decide_eq_true ha
    have hb2 : priceKeyAsc b = k := of_decide_eq_true hb
    rw [cmpPriceAsc, ha2, hb2, sortCmpGt_sub_self]
  · intro a b ha hb
    have ha2 : priceKeyDesc a = k := of_decide_eq_true ha
    have hb2 : priceKeyDesc b = k := of_decide_eq_true hb
    rw [cmpPriceDesc, ha2, hb2, sortCmpGt_sub_self]
  · intro a b ha hb
    have ha2 : titleKey a = t := of_decide_eq_true ha
    have hb2 : titleKey b = t := of_decide_eq_true hb
    simp [cmpTitleAsc, ha2, hb2, jsStrLt_irrefl, sortCmpGt]

set_option maxRecDepth 4000 in
/-- C1 counterexample: on a transport error the `server.js` handler and the
`route.ts` route both answer with an HTTP 500 error object, not with an
empty item list. -/
theorem c1_counterexample :
    serverHandler (some "app") (some "store") emptyQuery .transportError
      = (.error 500 "Failed to fetch from eBay", true)
  ∧ routeGET emptyQuery ⟨some "app", some "store"⟩ ⟨none⟩ 0 900 .transportError
      = (.error 500 "Failed to fetch", ⟨none⟩) := by
  constructor
  · with_unfolding_all decide
  · rfl

/-- C1 (amended): a transport error or a JSON parsing failure surfaces as
an HTTP 500 error response (in both pipelines); only an envelope that
parses but lacks the expected nested item structure degrades to an empty
list. -/
theorem c1_degrade_amended (appId store : Option String) (q : Query) (env : Envelope)
    (ha : truthyS appId = true) (hs : truthyS store = true)
    (henv : extractItems env = []) :
    serverHandler appId store q .transportError
        = (.error 500 "Failed to fetch from eBay", true)
  ∧ serverHandler appId store q .jsonError
        = (.error 500 "Failed to fetch from eBay", true)
  ∧ serverHandler appId store q (.ok env) = (.ok [], true)
  ∧ (∀ cfg : EnvConfig, ∀ st : CacheState, ∀ now ttl : ℚ,
      cacheGet st now ttl = none →
        (routeGET q cfg st now ttl .transportError).1 = .error 500 "Failed to fetch") := by
  refine ⟨?_, ?_, ?_, ?_⟩
  · simp [serverHandler, ha, hs]
  · simp [serverHandler, ha, hs]
  · simp [serverHandler, ha, hs, henv, postProcess_nil]
  · intro cfg st now ttl hmiss
    simp [routeGET, getEbayItems, hmiss]

/-- Witness for C1 (amended) at a structureless envelope. -/
theorem c1_degrade_amended_witness :
    truthyS (some "app") = true
  ∧ extractItems emptyEnvelope = []
  ∧ serverHandler (some "app") (some "store") emptyQuery (.ok emptyEnvelope) = (.ok [], true)
  ∧ cacheGet ⟨none⟩ 0 900 = none
  ∧ (routeGET emptyQuery ⟨some "app", some "store"⟩ ⟨none⟩ 0 900 .transportError).1
      = .error 500 "Failed to fetch" := by
  have h := c1_degrade_amended (some "app") (some "store") emptyQuery emptyEnvelope
    (by decide) (by decide) rfl
  exact ⟨by decide, rfl, h.2.2.1, rfl, h.2.2.2 ⟨some "app", some "store"⟩ ⟨none⟩ 0 900 rfl⟩

/-- C3 counterexample: on a cache hit the cached pipeline returns the base
set untouched — a request whose query carries the keyword `oak` still
receives a cached item whose title does not contain `oak`, so the
per-request filters are not applied there. -/
theorem c3_counterexample :
    oakQuery.keywords = some "oak"
  ∧ routeGET oakQuery ⟨none, none⟩ ⟨some ([mfEbayItem], 0)⟩ 0 900 .transportError
      = (.ok [mfEbayItem], ⟨some ([mfEbayItem], 0)⟩)
  ∧ jsIncludes (jsToLower (mfEbayItem.title.getD "")) (jsToLower "oak") = false := by
  refine ⟨rfl, by with_unfolding_all decide, by decide⟩

/-- C3 (amended): on a fetch miss the cached pipeline stores the
unfiltered normalized list and returns it as-is — no keyword/price filter
or sort is applied on any cached-pipeline request (hit or miss); the
per-request post-processing exists only in the uncached `server.js`
pipeline, which applies it to each freshly fetched result. -/
theorem c3_cache_amended (cfg : EnvConfig) :
    (∀ st : CacheState, ∀ now ttl : ℚ, ∀ env : StoresEnvelope,
      cacheGet st now ttl = none →
        getEbayItems cfg st now ttl (.ok env)
          = .ok (extractStoresItems env) ⟨some (extractStoresItems env, now)⟩ true)
  ∧ (∀ q : Query, ∀ st : CacheState, ∀ now ttl : ℚ, ∀ fr : Fetch StoresEnvelope,
      ∀ base : List EbayItem,
      cacheGet st now ttl = some base →
        routeGET q cfg st now ttl fr = (.ok base, st))
  ∧ (∀ appId store : Option String, ∀ q : Query, ∀ env : Envelope,
      truthyS appId = true → truthyS store = true →
        serverHandler appId store q (.ok env)
          = (.ok (postProcess q ((extractItems env).map simplifyItem)), true)) := by
  refine ⟨?_, ?_, ?_⟩
  · intro st now ttl env hmiss
    simp [getEbayItems, hmiss, cacheSet]
  · intro q st now ttl fr base hhit
    simp [routeGET, getEbayItems, hhit]
  · intro appId store q env ha hs
    simp [serverHandler, ha, hs]

/-- Witness for C3 (amended): a miss stores the normalized list, a hit
returns the stored list unmodified, and the uncached handler post-processes. -/
theorem c3_cache_amended_witness :
    cacheGet ⟨none⟩ 0 900 = none
  ∧ getEbayItems ⟨none, none⟩ ⟨none⟩ 0 900 (.ok emptyStoresEnv) = .ok [] ⟨some ([], 0)⟩ true
  ∧ cacheGet ⟨some ([mfEbayItem], 0)⟩ 0 900 = some [mfEbayItem]
  ∧ routeGET oakQuery ⟨none, none⟩ ⟨some ([mfEbayItem], 0)⟩ 0 900 .transportError
      = (.ok [mfEbayItem], ⟨some ([mfEbayItem], 0)⟩)
  ∧ serverHandler (some "app") (some "store") oakQuery (.ok emptyEnvelope)
      = (.ok (postProcess oakQuery ((extractItems emptyEnvelope).map simplifyItem)), true) := by
  have hhit : cacheGet ⟨some ([mfEbayItem], 0)⟩ 0 900 = some [mfEbayItem] := by
    with_unfolding_all decide
  exact ⟨rfl,
    (c3_cache_amended ⟨none, none⟩).1 ⟨none⟩ 0 900 emptyStoresEnv rfl,
    hhit,
    (c3_cache_amended ⟨none, none⟩).2.1 oakQuery ⟨some ([mfEbayItem], 0)⟩ 0 900
      .transportError [mfEbayItem] hhit,
    (c3_cache_amended ⟨none, none⟩).2.2 (some "app") (some "store") oakQuery emptyEnvelope
      (by decide) (by decide)⟩

/-- C8: with the entry inserted at `t0` and TTL `ttl`, every read strictly
before `t0 + ttl` returns the stored list without fetching and leaves the
cache unchanged, and every read at or after `t0 + ttl` is a miss that
fetches and overwrites the entry with the fresh normalized result. -/
theorem c8_cache_ttl (cfg : EnvConfig) (items0 : List EbayItem) (t0 ttl now : ℚ)
    (fr : Fetch StoresEnvelope) (env : StoresEnvelope) :
    (now < t0 + ttl →
        getEbayItems cfg ⟨some (items0, t0)⟩ now ttl fr
          = .ok items0 ⟨some (items0, t0)⟩ false)
  ∧ (t0 + ttl ≤ now →
        getEbayItems cfg ⟨some (items0, t0)⟩ now ttl (.ok env)
          = .ok (extractStoresItems env) ⟨some (extractStoresItems env, now)⟩ true) := by
  constructor
  · intro h
    simp [getEbayItems, cacheGet, h]
  · intro h
    simp [getEbayItems, cacheGet, not_lt.mpr h, cacheSet]

/-- Witness for C8: a read one second before expiry hits; a read exactly at
expiry misses, refetches and overwrites. -/
theorem c8_cache_ttl_witness :
    ((899 : ℚ) < 0 + 900
      ∧ getEbayItems ⟨none, none⟩ ⟨some ([mfEbayItem], 0)⟩ 899 900 .transportError
          = .ok [mfEbayItem] ⟨some ([mfEbayItem], 0)⟩ false)
  ∧ ((0 : ℚ) + 900 ≤ 900
      ∧ getEbayItems ⟨none, none⟩ ⟨some ([mfEbayItem], 0)⟩ 900 900 (.ok emptyStoresEnv)
          = .ok [] ⟨some ([], 900)⟩ true) := by
  have h1 : (899 : ℚ) < 0 + 900 := by norm_num
  have h2 : (0 : ℚ) + 900 ≤ 900 := by norm_num
  exact ⟨⟨h1, (c8_cache_ttl ⟨none, none⟩ [mfEbayItem] 0 900 899 .transportError
      emptyStoresEnv).1 h1⟩,
    ⟨h2, (c8_cache_ttl ⟨none, none⟩ [mfEbayItem] 0 900 900 .transportError
      emptyStoresEnv).2 h2⟩⟩

/-- C9 counterexample: with both credentials absent, `getEbayItems` of
`src/lib/ebay.ts` raises no configuration error — it proceeds with the
upstream fetch (using empty-string credentials) and returns normally. -/
theorem c9_counterexample :
    getEbayItems ⟨none, none⟩ ⟨none⟩ 0 900 (.ok emptyStoresEnv) = .ok [] ⟨some ([], 0)⟩ true
  ∧ ("SECURITY-APPNAME", "") ∈ buildStoresParams ⟨none, none⟩
  ∧ ("storeName", "") ∈ buildStoresParams ⟨none, none⟩ := by
  refine ⟨rfl, by decide, by decide⟩

/-- C9 (amended): the `server.js` handler checks the configuration on each
call and fails with HTTP 500 before any fetch when either value is absent
or empty; `getEbayItems` of `src/lib/ebay.ts` performs no such check — it
substitutes empty strings into the request parameters and always returns
normally on a parsed envelope. -/
theorem c9_config_amended (appId store : Option String) (q : Query) (fr : Fetch Envelope)
    (h : truthyS appId = false ∨ truthyS store = false) :
    serverHandler appId store q fr
        = (.error 500 "EBAY_APP_ID and EBAY_STORE env vars required", false)
  ∧ (∀ cfg : EnvConfig, ∀ st : CacheState, ∀ now ttl : ℚ, ∀ env : StoresEnvelope,
      (getEbayItems cfg st now ttl (.ok env)).isOk = true)
  ∧ (∀ cfg : EnvConfig,
      ("SECURITY-APPNAME", cfg.appId.getD "") ∈ buildStoresParams cfg
      ∧ ("storeName", cfg.store.getD "") ∈ buildStoresParams cfg) := by
  refine ⟨?_, ?_, ?_⟩
  · rcases h with h | h <;> simp [serverHandler, h]
  · intro cfg st now ttl env
    cases hc : cacheGet st now ttl <;> simp [getEbayItems, hc, TsOutcome.isOk]
  · intro cfg
    constructor <;> simp [buildStoresParams]

/-- Witness for C9 (amended) with the app credential absent. -/
theorem c9_config_amended_witness :
    truthyS (none : Option String) = false
  ∧ serverHandler none (some "store") emptyQuery .transportError
      = (.error 500 "EBAY_APP_ID and EBAY_STORE env vars required", false)
  ∧ (getEbayItems ⟨none, none⟩ ⟨none⟩ 0 900 (.ok emptyStoresEnv)).isOk = true := by
  have h := c9_config_amended none (some "store") emptyQuery .transportError (Or.inl rfl)
  exact ⟨rfl, h.1, h.2.1 ⟨none, none⟩ ⟨none⟩ 0 900 emptyStoresEnv⟩

/-- C6 counterexample: an item whose price is present but unparsable makes
the comparator produce NaN (treated as equal), so under `price_asc` it
stays in front of a parsable-price item instead of landing at the end. -/
theorem c6_counterexample :
    sortStage (some "price_asc") [itemAbc, itemFive] = [itemAbc, itemFive]
  ∧ truthyS itemAbc.price = true
  ∧ parseFloatS "abc" = JSNum.nan
  ∧ truthyS itemFive.price = true
  ∧ parseFloatS "5" = JSNum.num 5 := by
  refine ⟨by with_unfolding_all decide, rfl, rfl, by with_unfolding_all decide⟩

/-- C6 (amended): provided every item's price is either falsy (absent or
empty) or parses to a finite number, each falsy-priced item is placed after
every item with a parsed finite price, under both `price_asc` and
`price_desc`; an item with a present but unparsable price instead compares
equal to everything and is not pushed to the end. -/
theorem c6_missing_price_last (items : List SimplifiedItem)
    (h : ∀ it ∈ items, truthyS it.price = false
        ∨ ∃ q : ℚ, parseFloatS (it.price.getD "") = JSNum.num q) :
    ((jsSort cmpPriceAsc items).Pairwise fun a b =>
        ¬(truthyS a.price = false ∧ truthyS b.price = true
          ∧ ∃ q : ℚ, parseFloatS (b.price.getD "") = JSNum.num q))
  ∧ ((jsSort cmpPriceDesc items).Pairwise fun a b =>
        ¬(truthyS a.price = false ∧ truthyS b.price = true
          ∧ ∃ q : ℚ, parseFloatS (b.price.getD "") = JSNum.num q)) := by
  constructor
  · have key : (jsSort cmpPriceAsc items).Pairwise
        (fun a b => ¬(priceKeyAsc a = JSNum.posInf
          ∧ (∃ q : ℚ, priceKeyAsc b = JSNum.num q))) := by
      apply jsSort_pairwise_extreme cmpPriceAsc
        (fun it => priceKeyAsc it = JSNum.posInf)
        (fun it => ∃ q : ℚ, priceKeyAsc it = JSNum.num q)
      · rintro a ⟨q, hq⟩ hP
        rw [hP] at hq
        exact JSNum.noConfusion hq
      · rintro a b hP ⟨q, hq⟩
        simp [cmpPriceAsc, hP, hq, JSNum.sub, sortCmpGt]
      · rintro a b ⟨q, hq⟩ hP
        simp [cmpPriceAsc, hP, hq, JSNum.sub, sortCmpGt]
      · intro it hit
        cases htr : truthyS it.price with
        | false => right; simp [priceKeyAsc, htr]
        | true =>
          rcases h it hit with hfalsy | ⟨q, hq⟩
          · rw [htr] at hfalsy
            exact absurd hfalsy (by simp)
          · left
            exact ⟨q, by simp [priceKeyAsc, htr, hq]⟩
    refine key.imp ?_
    intro a b hnot
    rintro ⟨hfa, htb, q, hpb⟩
    exact hnot ⟨by simp [priceKeyAsc, hfa], ⟨q, by simp [priceKeyAsc, htb, hpb]⟩⟩
  · have key : (jsSort cmpPriceDesc items).Pairwise
        (fun a b => ¬(priceKeyDesc a = JSNum.negInf
          ∧ (∃ q : ℚ, priceKeyDesc b = JSNum.num q))) := by
      apply jsSort_pairwise_extreme cmpPriceDesc
        (fun it => priceKeyDesc it = JSNum.negInf)
        (fun it => ∃ q : ℚ, priceKeyDesc it = JSNum.num q)
      · rintro a ⟨q, hq⟩ hP
        rw [hP] at hq
        exact JSNum.noConfusion hq
      · rintro a b hP ⟨q, hq⟩
        simp [cmpPriceDesc, hP, hq, JSNum.sub, sortCmpGt]
      · rintro a b ⟨q, hq⟩ hP
        simp [cmpPriceDesc, hP, hq, JSNum.sub, sortCmpGt]
      · intro it hit
        cases htr : truthyS it.price with
        | false => right; simp [priceKeyDesc, htr]
        | true =>
          rcases h it hit with hfalsy | ⟨q, hq⟩
          · rw [htr] at hfalsy
            exact absurd hfalsy (by simp)
          · left
            exact ⟨q, by simp [priceKeyDesc, htr, hq]⟩
    refine key.imp ?_
    intro a b hnot
    rintro ⟨hfa, htb, q, hpb⟩
    exact hnot ⟨by simp [priceKeyDesc, hfa], ⟨q, by simp [priceKeyDesc, htb, hpb]⟩⟩

/-- Witness for C6 (amended) on a two-item list with one missing price. -/
theorem c6_missing_price_last_witness :
    (∀ it ∈ [itemNoPrice, itemFive], truthyS it.price = false
        ∨ ∃ q : ℚ, parseFloatS (it.price.getD "") = JSNum.num q)
  ∧ ((jsSort cmpPriceAsc [itemNoPrice, itemFive]).Pairwise fun a b =>
        ¬(truthyS a.price = false ∧ truthyS b.price = true
          ∧ ∃ q : ℚ, parseFloatS (b.price.getD "") = JSNum.num q))
  ∧ ((jsSort cmpPriceDesc [itemNoPrice, itemFive]).Pairwise fun a b =>
        ¬(truthyS a.price = false ∧ truthyS b.price = true
          ∧ ∃ q : ℚ, parseFloatS (b.price.getD "") = JSNum.num q)) := by
  have h : ∀ it ∈ [itemNoPrice, itemFive], truthyS it.price = false
      ∨ ∃ q : ℚ, parseFloatS (it.price.getD "") = JSNum.num q := by
    intro it hit
    rcases List.mem_cons.mp hit with rfl | hit2
    · left; rfl
    · rcases List.mem_cons.mp hit2 with rfl | hit3
      · right; exact ⟨5, by with_unfolding_all decide⟩
      · exact absurd hit3 (List.not_mem_nil it)
  exact ⟨h, (c6_missing_price_last _ h).1, (c6_missing_price_last _ h).2⟩

/-- C10: the per-request post-processing of `server.js` never invents or
duplicates items — every item occurs in the output at most as often as in
the input — and when no recognized `sortBy` is supplied the output is a
subsequence of the input. -/
theorem c10_no_invention (q : Query) (items : List SimplifiedItem) :
    (∀ a : SimplifiedItem, (postProcess q items).count a ≤ items.count a)
  ∧ (recognizedSortBy q.sortBy = false → (postProcess q items).Sublist items) := by
  have hsub : (maxPriceFilter q.maxPrice (minPriceFilter q.minPrice
      (keywordFilter q.keywords items))).Sublist items :=
    ((maxPriceFilter_sublist _ _).trans (minPriceFilter_sublist _ _)).trans
      (keywordFilter_sublist _ _)
  constructor
  · intro a
    have hc := (sortStage_perm q.sortBy (maxPriceFilter q.maxPrice
      (minPriceFilter q.minPrice (keywordFilter q.keywords items)))).count_eq a
    rw [postProcess, hc]
    exact hsub.count_le a
  · intro h
    rw [postProcess, sortStage_of_unrecognized _ _ h]
    exact hsub

/-- Witness for C10 at the `oak` query (no sort supplied). -/
theorem c10_no_invention_witness :
    (postProcess oakQuery [oakTable, oakChair, metalFrame]).count oakTable
        ≤ [oakTable, oakChair, metalFrame].count oakTable
  ∧ recognizedSortBy oakQuery.sortBy = false
  ∧ (postProcess oakQuery [oakTable, oakChair, metalFrame]).Sublist
      [oakTable, oakChair, metalFrame] :=
  ⟨(c10_no_invention oakQuery [oakTable, oakChair, metalFrame]).1 oakTable, rfl,
   (c10_no_invention oakQuery [oakTable, oakChair, metalFrame]).2 rfl⟩

end EbayPipeline
